import Mathlib

/-!
Shallow embedding of the medical-imaging batch pipeline:
`src/lib/batch-processor.ts`, `src/lib/dicom-utils.ts`, the upload route,
the AI client (`ai-client.ts`) and the report route
(`src/app/api/generate-report/route.ts`).

Conventions of the embedding:
* JavaScript `Date` values and `Date.now()` are modelled as `Nat` clock
  parameters threaded explicitly.
* Optional / possibly-`undefined` string fields are `Option String`;
  JavaScript truthiness of such a field (`undefined` and `""` are falsy)
  is `jsTruthy`.
* The floating-point expression `Math.floor((p / t) * 100)` is modelled
  exactly: `none` when `t = 0` (JavaScript produces `NaN`, not an
  integer), `some (p * 100 / t)` otherwise (`Nat` division floors).
* The external AI endpoint is an oracle: per call it either yields the
  raw model text or an error message (a thrown `Error`'s `.message`).
* Byte buffers (`Buffer` / `Uint8Array`) are `List Nat` of byte values.
-/

/-- JavaScript truthiness of an optional string field:
`undefined` and the empty string are falsy. -/
def jsTruthy : Option String → Bool
  | none => false
  | some s => !(s == "")

/-- `Math.floor((p / t) * 100)` on JavaScript numbers: `NaN` (modelled
`none`) when `t = 0`, otherwise the floored percentage. -/
def jsProgress (p t : Nat) : Option Nat :=
  if t = 0 then none else some (p * 100 / t)

/-- `MedicalImage['fileType']` from `src/types/medical.ts`. -/
inductive FileType
  | DICOM
  | PNG
  | JPEG
  | JPG
  | BMP
  | TIFF
deriving DecidableEq, Repr

/-- `DicomMetadata` from `src/types/medical.ts` (all fields optional). -/
structure DicomMetadata where
  patientName : Option String := none
  patientId : Option String := none
  studyDate : Option String := none
  studyTime : Option String := none
  modality : Option String := none
  bodyPart : Option String := none
  studyDescription : Option String := none
  seriesDescription : Option String := none
  institutionName : Option String := none
  physicianName : Option String := none
deriving DecidableEq, Repr

/-- `MedicalImage` from `src/types/medical.ts`. -/
structure MedicalImage where
  id : String
  originalName : String
  fileName : String
  filePath : String
  fileType : FileType
  fileSize : Nat
  isDicom : Bool
  convertedPath : Option String := none
  base64Data : Option String := none
  metadata : Option DicomMetadata := none
  uploadedAt : Nat
  processed : Bool
deriving DecidableEq, Repr

/-- `ImageBatch['status']` from `src/types/medical.ts`. -/
inductive BatchStatus
  | pending
  | processing
  | completed
  | failed
deriving DecidableEq, Repr

/-- `ImageBatch` from `src/types/medical.ts`. -/
structure ImageBatch where
  id : String
  images : List MedicalImage
  status : BatchStatus
  aiResponse : Option String := none
  error : Option String := none
  createdAt : Nat
  completedAt : Option Nat := none
deriving DecidableEq, Repr

/-- `ProcessingStatus['status']` from `src/types/medical.ts`. -/
inductive OverallStatus
  | uploading
  | converting
  | processing
  | generatingReport
  | completed
  | failed
deriving DecidableEq, Repr

/-- `ProcessingStatus` from `src/types/medical.ts`; `progress` is
`Option Nat` because the source computes it by a division that yields
`NaN` when `totalImages = 0`. -/
structure ProcessingStatus where
  totalImages : Nat
  processedImages : Nat
  currentBatch : Nat
  totalBatches : Nat
  status : OverallStatus
  progress : Option Nat
deriving DecidableEq, Repr

/-- Total image count of a batch list, as the source computes it:
`batches.reduce((sum, batch) => sum + batch.images.length, 0)`. -/
def sumImages (batches : List ImageBatch) : Nat :=
  (batches.map (fun b => b.images.length)).sum

namespace BatchProcessor

/-- `BatchProcessor.BATCH_SIZE`. -/
def BATCH_SIZE : Nat := 20

/-- The chunking loop of `BatchProcessor.createBatches`
(`for (let i = 0; i < images.length; i += BATCH_SIZE)`), with the
running chunk index `k = i / BATCH_SIZE` made explicit. -/
def createBatchesGo (now : Nat) : List MedicalImage → Nat → List ImageBatch
  | [], _ => []
  | img :: rest, k =>
      { id := "batch_" ++ toString now ++ "_" ++ toString k
        images := (img :: rest).take BATCH_SIZE
        status := .pending
        createdAt := now } ::
        createBatchesGo now ((img :: rest).drop BATCH_SIZE) (k + 1)
termination_by l _ => l.length
decreasing_by simp [List.length_drop, BATCH_SIZE]; omega

/-- `BatchProcessor.createBatches` (`Date.now()` is the `now` argument). -/
def createBatches (now : Nat) (images : List MedicalImage) : List ImageBatch :=
  createBatchesGo now images 0

end BatchProcessor

/-- `AIAnalysisResponse` as produced by `AIClient.parseAIResponse`
(`src/types/report.ts` / `ai-client.ts`). The `confidence` field is
always the literal `0.8` and `technicalNotes` is always `undefined`
(omitted by `JSON.stringify`), so the serializer renders them as
constants and they carry no model state. -/
structure AIAnalysisResponse where
  findings : String
  recommendations : String
  keyObservations : List String
deriving DecidableEq, Repr

/-- JSON escaping of one character as `JSON.stringify` does for the
characters that occur here (backslash and double quote). -/
def jsonEscapeChar (c : Char) : List Char :=
  if c = '\\' then ['\\', '\\']
  else if c = '"' then ['\\', '"']
  else [c]

/-- A JSON string literal for `s`. -/
def jsonQuote (s : String) : String :=
  "\"" ++ String.mk (s.data.flatMap jsonEscapeChar) ++ "\""

/-- A JSON array of string literals. -/
def jsonStringifyList (l : List String) : String :=
  "[" ++ String.intercalate "," (l.map jsonQuote) ++ "]"

/-- `JSON.stringify` of the response record built by `parseAIResponse`:
keys in insertion order (`findings`, `recommendations`, `confidence`,
`keyObservations`); `confidence` is always `0.8`; `technicalNotes` is
always `undefined` and is therefore dropped by `JSON.stringify`. -/
def stringifyAIResponse (r : AIAnalysisResponse) : String :=
  "\x7b\"findings\":" ++ jsonQuote r.findings ++
    ",\"recommendations\":" ++ jsonQuote r.recommendations ++
    ",\"confidence\":0.8,\"keyObservations\":" ++
    jsonStringifyList r.keyObservations ++ "\x7d"

namespace AIClient

/-- `AIClient.parseAIResponse`: wraps the raw model text into the flat
result record; `response || '...'` falls back when the text is empty. -/
def parseAIResponse (response : String) : AIAnalysisResponse :=
  { findings :=
      if response == "" then "No specific findings extracted from response."
      else response
    recommendations :=
      "Please consult with a qualified radiologist for interpretation."
    keyObservations := [] }

/-- `AIClient.analyzeImages`, with the network exchange abstracted as an
oracle: `.ok text` is the reply text
(`data.choices?.[0]?.message?.content || ''`), `.error msg` is the
message of any thrown transport / non-2xx / parsing error. The catch
block rewraps every error as `AI analysis failed: <msg>`. -/
def analyzeImages (outcome : Except String String) :
    Except String AIAnalysisResponse :=
  match outcome with
  | .ok text => .ok (parseAIResponse text)
  | .error msg => .error ("AI analysis failed: " ++ msg)

end AIClient

namespace BatchProcessor

/-- `BatchProcessor.processBatch`. The whole body sits in a
`try/catch` whose catch block always returns the batch marked
`failed`, so the function is total; the only fallible operation is the
AI call, abstracted by `outcome`. `now` models `new Date()`. The
locally thrown `Error('No processable images in batch')` is caught by
the same catch block and recorded as the batch error. -/
def processBatch (outcome : Except String String) (now : Nat)
    (batch : ImageBatch) : ImageBatch :=
  let b := { batch with status := BatchStatus.processing }
  let processableImages := b.images.filter (fun img => jsTruthy img.base64Data)
  if processableImages.isEmpty then
    { b with
      status := .failed
      error := some "No processable images in batch"
      completedAt := some now }
  else
    match AIClient.analyzeImages outcome with
    | .ok aiResponse =>
        { b with
          aiResponse := some (stringifyAIResponse aiResponse)
          status := .completed
          completedAt := some now }
    | .error msg =>
        { b with
          status := .failed
          error := some msg
          completedAt := some now }

/-- The `for` loop of `BatchProcessor.processAllBatches`: processes the
remaining batches starting at index `i`, with `processed` images
already counted. Returns the results, the progress snapshots emitted
during the loop (one before each batch, one after), and the final
processed-image count. The loop's own catch branch never runs because
`processBatch` is total, mirroring the source where `processBatch`
never rejects. -/
def processLoop (outcomes : Nat → Except String String)
    (now totalImages totalBatches : Nat) :
    List ImageBatch → Nat → Nat → List ImageBatch × List ProcessingStatus × Nat
  | [], _, processed => ([], [], processed)
  | b :: rest, i, processed =>
      let pre : ProcessingStatus :=
        { totalImages
          processedImages := processed
          currentBatch := i + 1
          totalBatches
          status := .processing
          progress := jsProgress processed totalImages }
      let processedBatch := processBatch (outcomes i) now b
      let processed2 := processed + b.images.length
      let post : ProcessingStatus :=
        { totalImages
          processedImages := processed2
          currentBatch := i + 1
          totalBatches
          status := .processing
          progress := jsProgress processed2 totalImages }
      let r := processLoop outcomes now totalImages totalBatches rest (i + 1) processed2
      (processedBatch :: r.1, pre :: post :: r.2.1, r.2.2)

/-- `BatchProcessor.processAllBatches`: returns the processed batches
and the full sequence of progress snapshots the optional `onProgress`
callback would receive — the loop snapshots followed by the final one,
whose `progress` is the literal `100`. -/
def processAllBatches (outcomes : Nat → Except String String) (now : Nat)
    (batches : List ImageBatch) : List ImageBatch × List ProcessingStatus :=
  let totalImages := sumImages batches
  let r := processLoop outcomes now totalImages batches.length batches 0 0
  (r.1,
   r.2.1 ++
     [{ totalImages
        processedImages := r.2.2
        currentBatch := batches.length
        totalBatches := batches.length
        status := .completed
        progress := some 100 }])

/-- `BatchProcessor.calculateOverallProgress`. -/
def calculateOverallProgress (batches : List ImageBatch) : ProcessingStatus :=
  let totalImages := sumImages batches
  let completedBatches := (batches.filter (fun b => b.status == .completed)).length
  let failedBatches := (batches.filter (fun b => b.status == .failed)).length
  let processingBatches := (batches.filter (fun b => b.status == .processing)).length
  let processedImages :=
    sumImages (batches.filter (fun b => b.status == .completed || b.status == .failed))
  let status : OverallStatus :=
    if completedBatches + failedBatches = batches.length then
      (if failedBatches = batches.length then .failed else .completed)
    else .processing
  { totalImages
    processedImages
    currentBatch := completedBatches + failedBatches + min processingBatches 1
    totalBatches := batches.length
    status
    progress := jsProgress processedImages totalImages }

/-- `BatchProcessor.getSuccessfulBatches`
(`status === 'completed' && batch.aiResponse`). -/
def getSuccessfulBatches (batches : List ImageBatch) : List ImageBatch :=
  batches.filter (fun b => b.status == .completed && jsTruthy b.aiResponse)

/-- `BatchProcessor.getFailedBatches`. -/
def getFailedBatches (batches : List ImageBatch) : List ImageBatch :=
  batches.filter (fun b => b.status == .failed)

end BatchProcessor

/-- `file.name.toLowerCase()`: character-wise ASCII lowercasing. -/
def jsToLowerCase (s : String) : String :=
  String.mk (s.data.map Char.toLower)

/-- JavaScript `String.prototype.endsWith`. -/
def jsEndsWith (s suffix : String) : Bool :=
  suffix.data.isSuffixOf s.data

/-- A file descriptor as the validator sees it (`File`: name and size). -/
structure FileDesc where
  name : String
  size : Nat
deriving DecidableEq, Repr

/-- The result record of `validateMedicalImage`. -/
structure ValidationResult where
  isValid : Bool
  error : Option String := none
  fileType : FileType
deriving DecidableEq, Repr

/-- `String.fromCharCode` applied to a list of byte values. -/
def fromCharCodes (codes : List Nat) : String :=
  String.mk (codes.map Char.ofNat)

/-- `isDicomFile` from `src/lib/dicom-utils.ts`: true only when the
buffer has at least 132 bytes and bytes 128..131 decode to `DICM`
(`buffer.slice(128, 132)` is `drop 128` then `take 4`). -/
def isDicomFile (buffer : List Nat) : Bool :=
  if buffer.length < 132 then false
  else fromCharCodes ((buffer.drop 128).take 4) == "DICM"

/-- `extractDicomMetadata`: a placeholder ignoring the buffer and
returning constants; the study date/time come from `new Date()`,
modelled by the `dateStr`/`timeStr` parameters. -/
def extractDicomMetadata (_buffer : List Nat) (dateStr timeStr : String) :
    DicomMetadata :=
  { patientName := some "Unknown"
    patientId := some "AUTO-GENERATED"
    studyDate := some dateStr
    studyTime := some timeStr
    modality := some "Unknown" }

/-- The extension allow-list of `validateMedicalImage`, exactly as in
the source (note: no `.tif` entry). -/
def validExtensions : List String :=
  [".dcm", ".dicom", ".png", ".jpg", ".jpeg", ".bmp", ".tiff"]

/-- `maxSize = 100 * 1024 * 1024` (100 MiB). -/
def maxFileSize : Nat := 100 * 1024 * 1024

/-- `validateMedicalImage` from `src/lib/dicom-utils.ts`. -/
def validateMedicalImage (file : FileDesc) : ValidationResult :=
  let extension := jsToLowerCase file.name
  let hasValidExtension := validExtensions.any (fun ext => jsEndsWith extension ext)
  if !hasValidExtension then
    { isValid := false
      error := some "Invalid file type. Supported formats: DICOM, PNG, JPG, JPEG, BMP, TIFF"
      fileType := .PNG }
  else if file.size > maxFileSize then
    { isValid := false
      error := some "File size too large. Maximum size is 100MB per file"
      fileType := .PNG }
  else
    let fileType : FileType :=
      if jsEndsWith extension ".dcm" || jsEndsWith extension ".dicom" then .DICOM
      else if jsEndsWith extension ".jpg" || jsEndsWith extension ".jpeg" then .JPEG
      else if jsEndsWith extension ".png" then .PNG
      else if jsEndsWith extension ".bmp" then .BMP
      else if jsEndsWith extension ".tiff" then .TIFF
      else .PNG
    { isValid := true, fileType }

/-- The fields of the `MedicalImage` record assembled by the upload
route that depend on the DICOM/non-DICOM branch. -/
structure UploadedImageRecord where
  fileType : FileType
  isDicom : Bool
  base64Data : Option String
  metadata : Option DicomMetadata
deriving DecidableEq, Repr

/-- One iteration of the upload route's per-file loop (the unnamed
upload `route.ts`): validation, DICOM sniff, then the branch — a
sniff-positive (or extension-DICOM) file gets the metadata stub and no
base64 payload, any other file is normalized. Sharp is the oracle
`sharpPng` (`none` = Sharp threw, triggering the fallback
`buffer.toString('base64')`, modelled by `base64Encode`). Returns
`none` when validation rejects the file (the route records a per-file
error and continues). -/
def uploadProcessFile (sharpPng : List Nat → Option String)
    (base64Encode : List Nat → String) (dateStr timeStr : String)
    (file : FileDesc) (buffer : List Nat) : Option UploadedImageRecord :=
  let validation := validateMedicalImage file
  if !validation.isValid then none
  else
    let isDicom := isDicomFile buffer || validation.fileType == FileType.DICOM
    if isDicom then
      some { fileType := validation.fileType
             isDicom := true
             base64Data := none
             metadata := some (extractDicomMetadata buffer dateStr timeStr) }
    else
      let base64Data :=
        match sharpPng buffer with
        | some s => s
        | none => base64Encode buffer
      some { fileType := validation.fileType
             isDicom := false
             base64Data := some base64Data
             metadata := none }

/-- The optional patient-info record of the generate-report route. -/
structure PatientInfo where
  name : Option String := none
  id : Option String := none
  studyDate : Option String := none
  modality : Option String := none
deriving DecidableEq, Repr

/-- The fixed disclaimer block every compiled report ends with. -/
def disclaimerBlock : String :=
  "## IMPORTANT DISCLAIMER\nThis report was generated using AI-assisted analysis and should always be reviewed by qualified medical professionals.\n\n"

/-- One `patientInfo` line: rendered only when the field is truthy. -/
def renderField (label : String) (v : Option String) : String :=
  if jsTruthy v then label ++ v.getD "" ++ "\n" else ""

/-- The `PATIENT INFORMATION` block (`if (patientInfo) { ... }`;
an object is always truthy, so `some` always renders the header). -/
def renderPatientInfo : Option PatientInfo → String
  | none => ""
  | some p =>
      "## PATIENT INFORMATION\n" ++
        renderField "Patient Name: " p.name ++
        renderField "Patient ID: " p.id ++
        renderField "Study Date: " p.studyDate ++
        renderField "Modality: " p.modality ++ "\n"

/-- One successful batch's findings section; `parse` abstracts
`JSON.parse` (`.error e` = the thrown parse error rendered by the
template `Error parsing AI response: ${error}`). -/
def renderBatchSection (parse : String → Except String AIAnalysisResponse)
    (idx : Nat) (b : ImageBatch) : String :=
  let header := "### Batch " ++ toString (idx + 1) ++ " Analysis (" ++
    toString b.images.length ++ " images)\n"
  match parse (b.aiResponse.getD "") with
  | .ok aiResponse =>
      header ++
        (if aiResponse.findings == "" then ""
         else "**Findings:** " ++ aiResponse.findings ++ "\n\n")
  | .error e => header ++ "Error parsing AI response: " ++ e ++ "\n\n"

/-- The `CONSOLIDATED FINDINGS` block, present only when some batch
succeeded. -/
def renderFindings (parse : String → Except String AIAnalysisResponse)
    (successfulBatches : List ImageBatch) : String :=
  if successfulBatches.length > 0 then
    "## CONSOLIDATED FINDINGS\n\n" ++
      String.join (successfulBatches.mapIdx (fun i b => renderBatchSection parse i b))
  else ""

/-- The `PROCESSING ERRORS` block, present only when some batch
failed; `batch.error || 'Unknown error'` uses string truthiness. -/
def renderErrors (failedBatches : List ImageBatch) : String :=
  if failedBatches.length > 0 then
    "## PROCESSING ERRORS\n" ++
      String.join (failedBatches.map (fun b =>
        "Batch: " ++ (if jsTruthy b.error then b.error.getD "" else "Unknown error") ++ "\n")) ++
      "\n"
  else ""

/-- `generateComprehensiveReport` from the generate-report route.
`parse` abstracts `JSON.parse`; `dateStr`/`dateTimeStr` model
`new Date().toLocaleDateString()` / `.toLocaleString()`. -/
def generateComprehensiveReport
    (parse : String → Except String AIAnalysisResponse)
    (dateStr dateTimeStr : String) (batches : List ImageBatch)
    (patientInfo : Option PatientInfo) : String :=
  let successfulBatches :=
    batches.filter (fun b => b.status == .completed && jsTruthy b.aiResponse)
  let failedBatches := batches.filter (fun b => b.status == .failed)
  "# COMPREHENSIVE RADIOLOGY REPORT\n\n" ++
    renderPatientInfo patientInfo ++
    ("## STUDY SUMMARY\n" ++
      "Total Images Analyzed: " ++ toString (sumImages batches) ++ "\n" ++
      "Successful Batches: " ++ toString successfulBatches.length ++ "\n" ++
      "Failed Batches: " ++ toString failedBatches.length ++ "\n" ++
      "Analysis Date: " ++ dateStr ++ "\n\n") ++
    renderFindings parse successfulBatches ++
    renderErrors failedBatches ++
    disclaimerBlock ++
    ("Generated by AI-Assisted Radiology Platform on " ++ dateTimeStr ++ "\n")

/-- `DiagnosticReport['status']` from `src/types/medical.ts`. -/
inductive ReportStatus
  | generating
  | completed
  | failed
deriving DecidableEq, Repr

/-- `DiagnosticReport` from `src/types/medical.ts`. -/
structure DiagnosticReport where
  id : String
  patientInfo : PatientInfo
  totalImages : Nat
  batches : List ImageBatch
  status : ReportStatus
  findings : String
  recommendations : String
  createdAt : Nat
  completedAt : Option Nat
  generatedBy : String
deriving DecidableEq, Repr

/-- The `DiagnosticReport` object literal built by the generate-report
route's `POST` handler, including its status ternary
`failedBatches.length === 0 ? 'completed' : 'completed'` (both arms are
the same literal in the source). -/
def buildDiagnosticReport (now : Nat) (patientInfo : Option PatientInfo)
    (validImagesCount : Nat) (processedBatches : List ImageBatch)
    (reportText : String) : DiagnosticReport :=
  let failedBatches := processedBatches.filter (fun b => b.status == .failed)
  { id := "report_" ++ toString now
    patientInfo := patientInfo.getD {}
    totalImages := validImagesCount
    batches := processedBatches
    status :=
      if failedBatches.length = 0 then ReportStatus.completed
      else ReportStatus.completed
    findings := reportText
    recommendations := "Please review all findings with a qualified medical professional."
    createdAt := now
    completedAt := some now
    generatedBy := "AI-Assisted Radiology Platform" }

/-! ## Shared concrete sample data for witnesses -/

/-- A sample image with a given optional base64 payload. -/
def demoImage (payload : Option String) : MedicalImage :=
  { id := "img1"
    originalName := "a.png"
    fileName := "a_1.png"
    filePath := "/uploads/a_1.png"
    fileType := .PNG
    fileSize := 1
    isDicom := false
    base64Data := payload
    uploadedAt := 0
    processed := false }

/-- A sample one-image batch with a given status and payload. -/
def demoBatch (st : BatchStatus) (payload : Option String) : ImageBatch :=
  { id := "b1"
    images := [demoImage payload]
    status := st
    createdAt := 0 }

/-! ## Claim theorems -/

/-- Claim C10: the `DiagnosticReport` built by the generate-report route
always has status `completed`, whatever the batch outcomes are — both
arms of the status ternary are the literal `'completed'`, so a caller
cannot detect full failure from the report's status field. -/
theorem buildDiagnosticReport_status_always_completed
    (now : Nat) (patientInfo : Option PatientInfo) (validImagesCount : Nat)
    (processedBatches : List ImageBatch) (reportText : String) :
    (buildDiagnosticReport now patientInfo validImagesCount processedBatches
      reportText).status = ReportStatus.completed := by
  simp only [buildDiagnosticReport]
  split <;> rfl

/-- Claim C8: the compiled report text contains the fixed disclaimer
block verbatim, for every batch list (including empty or all-failed)
and every optional patient-info record. -/
theorem generateComprehensiveReport_contains_disclaimer
    (parse : String → Except String AIAnalysisResponse)
    (dateStr dateTimeStr : String) (batches : List ImageBatch)
    (patientInfo : Option PatientInfo) :
    ∃ pre post,
      generateComprehensiveReport parse dateStr dateTimeStr batches patientInfo =
        pre ++ disclaimerBlock ++ post :=
  ⟨_, _, rfl⟩

/-- Claim C4: the progress division is not guarded — for every batch
list with zero total images, `calculateOverallProgress` computes
`Math.floor((0 / 0) * 100)`, which is `NaN` (modelled `none`), not a
well-defined integer. -/
theorem calculateOverallProgress_zero_total_no_integer
    (batches : List ImageBatch) (h : sumImages batches = 0) :
    (BatchProcessor.calculateOverallProgress batches).progress = none := by
  have h' : sumImages (batches.filter fun b =>
      b.status == .completed || b.status == .failed) = 0 := by
    simp only [sumImages, List.sum_eq_zero_iff] at h ⊢
    intro x hx
    rcases List.mem_map.mp hx with ⟨b, hb, rfl⟩
    exact h _ (List.mem_map.mpr ⟨b, List.mem_of_mem_filter hb, rfl⟩)
  simp only [BatchProcessor.calculateOverallProgress, h, jsProgress, if_pos]

/-- Witness for C4 at the concrete failing input: the empty batch list
has zero total images and gets a `NaN` progress value. -/
theorem calculateOverallProgress_zero_total_no_integer_witness :
    sumImages [] = 0 ∧
      (BatchProcessor.calculateOverallProgress []).progress = none :=
  ⟨rfl, calculateOverallProgress_zero_total_no_integer [] rfl⟩

/-- Claim C3, counterexample: on the empty batch list the code derives
overall status `failed` (the all-failed comparison `0 === 0` succeeds
vacuously), not `processing` as the claim states. -/
theorem calculateOverallProgress_empty_is_failed :
    (BatchProcessor.calculateOverallProgress []).status = OverallStatus.failed ∧
      OverallStatus.failed ≠ OverallStatus.processing := by
  decide

/-- A batch in a terminal state (`completed` or `failed`). -/
def batchTerminal (b : ImageBatch) : Bool :=
  b.status == .completed || b.status == .failed

theorem countP_completed_add_failed (l : List ImageBatch) :
    l.countP (fun b => b.status == BatchStatus.completed) +
      l.countP (fun b => b.status == BatchStatus.failed) =
      l.countP (fun b => batchTerminal b) := by
  induction l with
  | nil => simp
  | cons a l ih =>
      simp only [List.countP_cons, batchTerminal]
      cases h : a.status <;> simp [h, batchTerminal] at ih ⊢ <;> omega

/-- Claim C3 (amended): the derived overall status is `completed` iff
every batch is terminal and at least one completed; it is `failed` iff
every batch failed — which holds vacuously for the empty batch list,
so the empty list yields `failed`, not `processing`; it is
`processing` iff some batch is not yet terminal. -/
theorem calculateOverallProgress_status_spec (batches : List ImageBatch) :
    ((BatchProcessor.calculateOverallProgress batches).status = OverallStatus.completed ↔
      (∀ b ∈ batches, batchTerminal b = true) ∧
        ∃ b ∈ batches, b.status = BatchStatus.completed) ∧
    ((BatchProcessor.calculateOverallProgress batches).status = OverallStatus.failed ↔
      ∀ b ∈ batches, b.status = BatchStatus.failed) ∧
    ((BatchProcessor.calculateOverallProgress batches).status = OverallStatus.processing ↔
      ∃ b ∈ batches, batchTerminal b = false) := by
  classical
  have hsum := countP_completed_add_failed batches
  have hle : batches.countP (fun b => batchTerminal b) ≤ batches.length :=
    List.countP_le_length _
  have hfle : batches.countP (fun b => b.status == BatchStatus.failed) ≤ batches.length :=
    List.countP_le_length _
  have hstat : (BatchProcessor.calculateOverallProgress batches).status =
      (if batches.countP (fun b => b.status == BatchStatus.completed) +
            batches.countP (fun b => b.status == BatchStatus.failed) = batches.length then
         (if batches.countP (fun b => b.status == BatchStatus.failed) = batches.length
          then OverallStatus.failed else OverallStatus.completed)
       else OverallStatus.processing) := by
    simp only [BatchProcessor.calculateOverallProgress, ← List.countP_eq_length_filter]
  have hA1 : (batches.countP (fun b => b.status == BatchStatus.completed) +
      batches.countP (fun b => b.status == BatchStatus.failed) = batches.length) ↔
      ∀ b ∈ batches, batchTerminal b = true := by
    rw [hsum]; exact List.countP_eq_length
  have hA2 : (batches.countP (fun b => b.status == BatchStatus.failed) = batches.length) ↔
      ∀ b ∈ batches, b.status = BatchStatus.failed := by
    rw [List.countP_eq_length]; simp
  have hA3 : (0 < batches.countP (fun b => b.status == BatchStatus.completed)) ↔
      ∃ b ∈ batches, b.status = BatchStatus.completed := by
    rw [List.countP_pos_iff]; simp
  rw [hstat]
  by_cases hcf : batches.countP (fun b => b.status == BatchStatus.completed) +
      batches.countP (fun b => b.status == BatchStatus.failed) = batches.length
  · by_cases hfl : batches.countP (fun b => b.status == BatchStatus.failed) = batches.length
    · rw [if_pos hcf, if_pos hfl]
      refine ⟨iff_of_false (by decide) ?_, iff_of_true rfl (hA2.mp hfl),
        iff_of_false (by decide) ?_⟩
      · rintro ⟨-, hex⟩
        have hc := hA3.mpr hex
        omega
      · rintro ⟨b, hb, hbt⟩
        have := hA1.mp hcf b hb
        simp [this] at hbt
    · rw [if_pos hcf, if_neg hfl]
      refine ⟨iff_of_true rfl ⟨hA1.mp hcf, hA3.mp (by omega)⟩,
        iff_of_false (by decide) (fun h => hfl (hA2.mpr h)),
        iff_of_false (by decide) ?_⟩
      rintro ⟨b, hb, hbt⟩
      have := hA1.mp hcf b hb
      simp [this] at hbt
  · rw [if_neg hcf]
    have hnot : ¬ ∀ b ∈ batches, batchTerminal b = true := fun h => hcf (hA1.mpr h)
    refine ⟨iff_of_false (by decide) (fun h => hcf (hA1.mpr h.1)),
      iff_of_false (by decide) ?_, iff_of_true rfl ?_⟩
    · intro h
      exact hcf (hA1.mpr fun b hb => by simp [batchTerminal, h b hb])
    · push_neg at hnot
      rcases hnot with ⟨b, hb, hbt⟩
      exact ⟨b, hb, by simpa using hbt⟩

/-- Witness for C3 at concrete inputs: one completed and one failed
batch yield `completed`; a single pending batch yields `processing`. -/
theorem calculateOverallProgress_status_spec_witness :
    (BatchProcessor.calculateOverallProgress
        [demoBatch .completed (some "ZGF0YQ=="), demoBatch .failed none]).status =
      OverallStatus.completed ∧
    (BatchProcessor.calculateOverallProgress [demoBatch .pending none]).status =
      OverallStatus.processing :=
  ⟨(calculateOverallProgress_status_spec
      [demoBatch .completed (some "ZGF0YQ=="), demoBatch .failed none]).1.mpr
     (by decide),
   (calculateOverallProgress_status_spec [demoBatch .pending none]).2.2.mpr
     (by decide)⟩

/-- Claim C6, counterexample: the allow-list has no `.tif` entry, so a
small `.tif` file is rejected, while the claim says it is accepted
(`.tiff` works). -/
theorem validateMedicalImage_tif_rejected :
    (validateMedicalImage { name := "scan.tif", size := 1 }).isValid = false ∧
    (1 : Nat) ≤ maxFileSize ∧
    (validateMedicalImage { name := "scan.tiff", size := 1 }).isValid = true := by
  decide

/-- Claim C6 (amended): the validator accepts a file iff its lowercased
name ends with one of `.dcm`, `.dicom`, `.png`, `.jpg`, `.jpeg`,
`.bmp`, `.tiff` — `.tif` is not in the allow-list — and its size is at
most 100 MiB; on accept the type tag follows the precedence
DICOM > JPEG > PNG > BMP > TIFF and no error is set; on reject the
result carries a human-readable reason and the default tag PNG. -/
theorem validateMedicalImage_spec (file : FileDesc) :
    ((validateMedicalImage file).isValid = true ↔
      ((jsEndsWith (jsToLowerCase file.name) ".dcm" = true ∨
        jsEndsWith (jsToLowerCase file.name) ".dicom" = true ∨
        jsEndsWith (jsToLowerCase file.name) ".png" = true ∨
        jsEndsWith (jsToLowerCase file.name) ".jpg" = true ∨
        jsEndsWith (jsToLowerCase file.name) ".jpeg" = true ∨
        jsEndsWith (jsToLowerCase file.name) ".bmp" = true ∨
        jsEndsWith (jsToLowerCase file.name) ".tiff" = true) ∧
        file.size ≤ maxFileSize)) ∧
    ((validateMedicalImage file).isValid = false →
      (validateMedicalImage file).error.isSome = true ∧
      (validateMedicalImage file).fileType = FileType.PNG) ∧
    ((validateMedicalImage file).isValid = true →
      (validateMedicalImage file).error = none ∧
      (validateMedicalImage file).fileType =
        (if jsEndsWith (jsToLowerCase file.name) ".dcm" ||
            jsEndsWith (jsToLowerCase file.name) ".dicom" then FileType.DICOM
         else if jsEndsWith (jsToLowerCase file.name) ".jpg" ||
            jsEndsWith (jsToLowerCase file.name) ".jpeg" then FileType.JPEG
         else if jsEndsWith (jsToLowerCase file.name) ".png" then FileType.PNG
         else if jsEndsWith (jsToLowerCase file.name) ".bmp" then FileType.BMP
         else if jsEndsWith (jsToLowerCase file.name) ".tiff" then FileType.TIFF
         else FileType.PNG)) := by
  have hany : (validExtensions.any
      (fun ext => jsEndsWith (jsToLowerCase file.name) ext) = true) ↔
      (jsEndsWith (jsToLowerCase file.name) ".dcm" = true ∨
        jsEndsWith (jsToLowerCase file.name) ".dicom" = true ∨
        jsEndsWith (jsToLowerCase file.name) ".png" = true ∨
        jsEndsWith (jsToLowerCase file.name) ".jpg" = true ∨
        jsEndsWith (jsToLowerCase file.name) ".jpeg" = true ∨
        jsEndsWith (jsToLowerCase file.name) ".bmp" = true ∨
        jsEndsWith (jsToLowerCase file.name) ".tiff" = true) := by
    simp [validExtensions]
  by_cases h1 : validExtensions.any
      (fun ext => jsEndsWith (jsToLowerCase file.name) ext) = true
  · by_cases h2 : file.size ≤ maxFileSize
    · have h2' : ¬ (file.size > maxFileSize) := by omega
      have hv : validateMedicalImage file =
          { isValid := true
            error := none
            fileType :=
              (if jsEndsWith (jsToLowerCase file.name) ".dcm" ||
                  jsEndsWith (jsToLowerCase file.name) ".dicom" then FileType.DICOM
               else if jsEndsWith (jsToLowerCase file.name) ".jpg" ||
                  jsEndsWith (jsToLowerCase file.name) ".jpeg" then FileType.JPEG
               else if jsEndsWith (jsToLowerCase file.name) ".png" then FileType.PNG
               else if jsEndsWith (jsToLowerCase file.name) ".bmp" then FileType.BMP
               else if jsEndsWith (jsToLowerCase file.name) ".tiff" then FileType.TIFF
               else FileType.PNG) } := by
        simp [validateMedicalImage, h1, h2']
      rw [hv]
      refine ⟨iff_of_true rfl ⟨hany.mp h1, h2⟩, ?_, fun _ => ⟨rfl, rfl⟩⟩
      intro h
      simp at h
    · have h2' : file.size > maxFileSize := by omega
      have hv : validateMedicalImage file =
          { isValid := false
            error := some "File size too large. Maximum size is 100MB per file"
            fileType := .PNG } := by
        simp [validateMedicalImage, h1, h2']
      rw [hv]
      refine ⟨iff_of_false (by simp) (fun h => h2 h.2), fun _ => ⟨rfl, rfl⟩, ?_⟩
      intro h
      simp at h
  · have hv : validateMedicalImage file =
        { isValid := false
          error := some "Invalid file type. Supported formats: DICOM, PNG, JPG, JPEG, BMP, TIFF"
          fileType := .PNG } := by
      simp [validateMedicalImage, h1]
    rw [hv]
    refine ⟨iff_of_false (by simp) (fun h => h1 (hany.mpr h.1)),
      fun _ => ⟨rfl, rfl⟩, ?_⟩
    intro h
    simp at h

/-- Witness for C6 at concrete inputs: a `.dcm` file within the size
bound is accepted as DICOM; an unknown extension is rejected with the
PNG default tag. -/
theorem validateMedicalImage_spec_witness :
    (validateMedicalImage { name := "Study.DCM", size := 5 }).isValid = true ∧
    (validateMedicalImage { name := "Study.DCM", size := 5 }).fileType = FileType.DICOM ∧
    (validateMedicalImage { name := "notes.txt", size := 5 }).isValid = false ∧
    (validateMedicalImage { name := "notes.txt", size := 5 }).fileType = FileType.PNG :=
  ⟨(validateMedicalImage_spec { name := "Study.DCM", size := 5 }).1.mpr
      (by decide),
   ((validateMedicalImage_spec { name := "Study.DCM", size := 5 }).2.2
      ((validateMedicalImage_spec { name := "Study.DCM", size := 5 }).1.mpr
        (by decide))).2.trans (by decide),
   by decide,
   ((validateMedicalImage_spec { name := "notes.txt", size := 5 }).2.1
      (by decide)).2⟩

theorem createBatchesGo_spec (now : Nat) :
    ∀ n (l : List MedicalImage) (k : Nat), l.length ≤ n →
      ((BatchProcessor.createBatchesGo now l k).map (fun b => b.images)).join = l ∧
      (BatchProcessor.createBatchesGo now l k).length =
        (l.length + (BatchProcessor.BATCH_SIZE - 1)) / BatchProcessor.BATCH_SIZE ∧
      (∀ b ∈ BatchProcessor.createBatchesGo now l k,
        1 ≤ b.images.length ∧ b.images.length ≤ BatchProcessor.BATCH_SIZE ∧
          b.status = BatchStatus.pending) ∧
      (∀ b ∈ (BatchProcessor.createBatchesGo now l k).dropLast,
        b.images.length = BatchProcessor.BATCH_SIZE) ∧
      (l ≠ [] → ∃ last, (BatchProcessor.createBatchesGo now l k).getLast? = some last ∧
        last.images.length =
          (if l.length % BatchProcessor.BATCH_SIZE = 0 then BatchProcessor.BATCH_SIZE
           else l.length % BatchProcessor.BATCH_SIZE)) := by
  simp only [BatchProcessor.BATCH_SIZE]
  intro n
  induction n with
  | zero =>
      intro l k hl
      have hnil : l = [] := List.length_eq_zero.mp (Nat.le_zero.mp hl)
      subst hnil
      simp [BatchProcessor.createBatchesGo]
  | succ n ih =>
      intro l k hl
      match l with
      | [] => simp [BatchProcessor.createBatchesGo]
      | img :: rest =>
        simp only [List.length_cons] at hl
        rw [BatchProcessor.createBatchesGo]
        simp only [BatchProcessor.BATCH_SIZE]
        by_cases hlen : rest.length + 1 ≤ 20
        · have hdrop : (img :: rest).drop 20 = [] :=
            List.drop_eq_nil_of_le (by simpa using hlen)
          have htake : (img :: rest).take 20 = img :: rest :=
            List.take_of_length_le (by simpa using hlen)
          rw [hdrop, htake]
          simp only [BatchProcessor.createBatchesGo]
          refine ⟨by simp, ?_, ?_, by simp, ?_⟩
          · simp only [List.length_cons, List.length_nil]
            omega
          · intro b hb
            simp only [List.mem_singleton] at hb
            subst hb
            refine ⟨by simp, by simpa using hlen, rfl⟩
          · intro _
            refine ⟨{ id := "batch_" ++ toString now ++ "_" ++ toString k
                      images := img :: rest
                      status := BatchStatus.pending
                      createdAt := now }, rfl, ?_⟩
            simp only [List.length_cons]
            by_cases hm : (rest.length + 1) % 20 = 0
            · simp only [hm, if_pos]
              omega
            · rw [if_neg hm]
              omega
        · have hlen' : 21 ≤ rest.length + 1 := by omega
          have hdl : ((img :: rest).drop 20).length = rest.length + 1 - 20 := by
            simp [List.length_drop]
          obtain ⟨ihj, ihlen, ihmem, ihdrop, ihlast⟩ :=
            ih ((img :: rest).drop 20) (k + 1) (by simp [List.length_drop]; omega)
          have hdropne : (img :: rest).drop 20 ≠ [] := by
            intro h
            rw [h] at hdl
            simp at hdl
            omega
          obtain ⟨last, hlast, hlastlen⟩ := ihlast hdropne
          have htailne : BatchProcessor.createBatchesGo now ((img :: rest).drop 20) (k + 1) ≠ [] := by
            intro h
            rw [h] at hlast
            simp at hlast
          refine ⟨?_, ?_, ?_, ?_, ?_⟩
          · simp only [List.map_cons, List.join_cons, ihj]
            exact List.take_append_drop 20 (img :: rest)
          · simp only [List.length_cons, ihlen, hdl]
            omega
          · intro b hb
            rcases List.mem_cons.mp hb with hb | hb
            · subst hb
              refine ⟨?_, ?_, rfl⟩ <;> simp [List.length_take]
            · exact ihmem b hb
          · intro b hb
            rw [List.dropLast_cons_of_ne_nil htailne] at hb
            rcases List.mem_cons.mp hb with hb | hb
            · subst hb
              simp [List.length_take]
              omega
            · exact ihdrop b hb
          · intro _
            obtain ⟨t0, t', ht⟩ := List.exists_cons_of_ne_nil htailne
            refine ⟨last, ?_, ?_⟩
            · rw [ht, List.getLast?_cons_cons, ← ht]
              exact hlast
            · rw [hlastlen, hdl]
              have hmod : (rest.length + 1) % 20 = (rest.length + 1 - 20) % 20 := by
                omega
              simp only [List.length_cons, hmod]

/-- Claim C2: for `N` input images and `B = BATCH_SIZE = 20`,
`createBatches` returns `⌈N / B⌉` batches whose image sequences
concatenate back to the input in order; every batch except possibly
the last has exactly `B` images, every batch is non-empty and pending,
and the last batch has `N mod B` images (`B` when `N mod B = 0`). -/
theorem createBatches_spec (now : Nat) (images : List MedicalImage) :
    ((BatchProcessor.createBatches now images).map (fun b => b.images)).join = images ∧
    (BatchProcessor.createBatches now images).length =
      (images.length + (BatchProcessor.BATCH_SIZE - 1)) / BatchProcessor.BATCH_SIZE ∧
    (∀ b ∈ BatchProcessor.createBatches now images,
      1 ≤ b.images.length ∧ b.images.length ≤ BatchProcessor.BATCH_SIZE ∧
        b.status = BatchStatus.pending) ∧
    (∀ b ∈ (BatchProcessor.createBatches now images).dropLast,
      b.images.length = BatchProcessor.BATCH_SIZE) ∧
    (images ≠ [] → ∃ last,
      (BatchProcessor.createBatches now images).getLast? = some last ∧
      last.images.length =
        (if images.length % BatchProcessor.BATCH_SIZE = 0 then BatchProcessor.BATCH_SIZE
         else images.length % BatchProcessor.BATCH_SIZE)) :=
  createBatchesGo_spec now images.length images 0 le_rfl

/-- Witness for C2 at a concrete input: three images yield one final
batch of 3 = 3 mod 20 images. -/
theorem createBatches_spec_witness :
    ([demoImage none, demoImage none, demoImage none] : List MedicalImage) ≠ [] ∧
    ∃ last,
      (BatchProcessor.createBatches 0
        [demoImage none, demoImage none, demoImage none]).getLast? = some last ∧
      last.images.length =
        (if ([demoImage none, demoImage none, demoImage none] : List MedicalImage).length %
              BatchProcessor.BATCH_SIZE = 0
         then BatchProcessor.BATCH_SIZE
         else ([demoImage none, demoImage none, demoImage none] : List MedicalImage).length %
              BatchProcessor.BATCH_SIZE) :=
  ⟨by decide,
   (createBatches_spec 0 [demoImage none, demoImage none, demoImage none]).2.2.2.2
     (by decide)⟩

theorem stringifyAIResponse_ne_empty (r : AIAnalysisResponse) :
    stringifyAIResponse r ≠ "" := by
  intro h
  have hlen := congrArg String.length h
  simp only [stringifyAIResponse, String.length_append, String.length_empty] at hlen
  have h12 : ("\x7b\"findings\":" : String).length = 12 := by decide
  omega

theorem sumImages_cons (b : ImageBatch) (l : List ImageBatch) :
    sumImages (b :: l) = b.images.length + sumImages l := by
  simp [sumImages]

/-- Case characterization of `processBatch`: the three possible result
records (no processable image, AI success, AI failure). -/
theorem processBatch_eq (outcome : Except String String) (now : Nat)
    (batch : ImageBatch) :
    BatchProcessor.processBatch outcome now batch =
      (if (batch.images.filter (fun img => jsTruthy img.base64Data)).isEmpty then
        { batch with
          status := .failed
          error := some "No processable images in batch"
          completedAt := some now }
      else
        match outcome with
        | .ok text =>
            { batch with
              aiResponse := some (stringifyAIResponse (AIClient.parseAIResponse text))
              status := .completed
              completedAt := some now }
        | .error msg =>
            { batch with
              status := .failed
              error := some ("AI analysis failed: " ++ msg)
              completedAt := some now }) := by
  cases outcome <;> rfl

theorem processLoop_results_length (outcomes : Nat → Except String String)
    (now totalImages totalBatches : Nat) :
    ∀ (l : List ImageBatch) (i p : Nat),
      (BatchProcessor.processLoop outcomes now totalImages totalBatches l i p).1.length =
        l.length := by
  intro l
  induction l with
  | nil => intro i p; simp [BatchProcessor.processLoop]
  | cons b rest ih =>
      intro i p
      simp [BatchProcessor.processLoop, ih]

theorem processLoop_results_getElem? (outcomes : Nat → Except String String)
    (now totalImages totalBatches : Nat) :
    ∀ (l : List ImageBatch) (i p k : Nat),
      (BatchProcessor.processLoop outcomes now totalImages totalBatches l i p).1[k]? =
        (l[k]?).map (fun b => BatchProcessor.processBatch (outcomes (i + k)) now b) := by
  intro l
  induction l with
  | nil => intro i p k; simp [BatchProcessor.processLoop]
  | cons b rest ih =>
      intro i p k
      cases k with
      | zero => simp [BatchProcessor.processLoop]
      | succ k =>
          simp only [BatchProcessor.processLoop, List.getElem?_cons_succ]
          rw [ih]
          have : i + (k + 1) = i + 1 + k := by omega
          rw [this]

/-- Claim C9: `processBatch` never fails to resolve — for every input
batch it returns that batch (same id and images) in a terminal state:
`completed` with a non-empty serialized `aiResponse` and `completedAt`
set, or `failed` with an error message and `completedAt` set — and so
every batch returned by `processAllBatches` is terminal; the runner's
catch branch for a throwing `processBatch` is dead code (accordingly,
the embedding of the loop has no catch branch). -/
theorem processBatch_terminal (outcome : Except String String) (now : Nat)
    (batch : ImageBatch) (outcomes : Nat → Except String String)
    (batches : List ImageBatch) :
    ((BatchProcessor.processBatch outcome now batch).status = BatchStatus.completed ∨
      (BatchProcessor.processBatch outcome now batch).status = BatchStatus.failed) ∧
    ((BatchProcessor.processBatch outcome now batch).status = BatchStatus.completed →
      ∃ s, (BatchProcessor.processBatch outcome now batch).aiResponse = some s ∧
        s ≠ "" ∧
        (BatchProcessor.processBatch outcome now batch).completedAt = some now) ∧
    ((BatchProcessor.processBatch outcome now batch).status = BatchStatus.failed →
      (BatchProcessor.processBatch outcome now batch).error.isSome = true ∧
      (BatchProcessor.processBatch outcome now batch).completedAt = some now) ∧
    (BatchProcessor.processBatch outcome now batch).images = batch.images ∧
    (BatchProcessor.processBatch outcome now batch).id = batch.id ∧
    (∀ r ∈ (BatchProcessor.processAllBatches outcomes now batches).1,
      r.status = BatchStatus.completed ∨ r.status = BatchStatus.failed) := by
  have hpart : ∀ (oc : Except String String) (b : ImageBatch),
      ((BatchProcessor.processBatch oc now b).status = BatchStatus.completed ∨
        (BatchProcessor.processBatch oc now b).status = BatchStatus.failed) ∧
      ((BatchProcessor.processBatch oc now b).status = BatchStatus.completed →
        ∃ s, (BatchProcessor.processBatch oc now b).aiResponse = some s ∧ s ≠ "" ∧
          (BatchProcessor.processBatch oc now b).completedAt = some now) ∧
      ((BatchProcessor.processBatch oc now b).status = BatchStatus.failed →
        (BatchProcessor.processBatch oc now b).error.isSome = true ∧
        (BatchProcessor.processBatch oc now b).completedAt = some now) ∧
      (BatchProcessor.processBatch oc now b).images = b.images ∧
      (BatchProcessor.processBatch oc now b).id = b.id := by
    intro oc b
    rw [processBatch_eq]
    by_cases hempty : (b.images.filter (fun img => jsTruthy img.base64Data)).isEmpty
    · rw [if_pos hempty]
      refine ⟨Or.inr rfl, ?_, fun _ => ⟨rfl, rfl⟩, rfl, rfl⟩
      intro h
      simp at h
    · rw [if_neg hempty]
      cases oc with
      | ok text =>
          refine ⟨Or.inl rfl, fun _ => ⟨_, rfl, stringifyAIResponse_ne_empty _, rfl⟩,
            ?_, rfl, rfl⟩
          intro h
          simp at h
      | error msg =>
          refine ⟨Or.inr rfl, ?_, fun _ => ⟨rfl, rfl⟩, rfl, rfl⟩
          intro h
          simp at h
  obtain ⟨h1, h2, h3, h4, h5⟩ := hpart outcome batch
  refine ⟨h1, h2, h3, h4, h5, ?_⟩
  intro r hr
  obtain ⟨k, hk⟩ := List.mem_iff_getElem?.mp hr
  have := processLoop_results_getElem? outcomes now (sumImages batches)
    batches.length batches 0 0 k
  simp only [BatchProcessor.processAllBatches] at hk
  rw [this] at hk
  rcases hb : batches[k]? with _ | b
  · rw [hb] at hk; simp at hk
  · rw [hb] at hk
    simp at hk
    subst hk
    exact (hpart (outcomes k) b).1

/-- Witness for C9 at concrete inputs: a successful outcome completes
the batch with a non-empty serialized response; the no-payload batch
fails with the recorded error. -/
theorem processBatch_terminal_witness :
    ∃ s, (BatchProcessor.processBatch (Except.ok "all clear") 7
        (demoBatch .pending (some "ZGF0YQ=="))).aiResponse = some s ∧ s ≠ "" ∧
      (BatchProcessor.processBatch (Except.ok "all clear") 7
        (demoBatch .pending (some "ZGF0YQ=="))).completedAt = some 7 :=
  (processBatch_terminal (Except.ok "all clear") 7
    (demoBatch .pending (some "ZGF0YQ==")) (fun _ => Except.ok "x") []).2.1
    (by decide)

/-- Claim C1: one run of `processAllBatches` attempts every batch — the
result list is index-aligned with the input and batch `k`'s result
depends only on batch `k` and its own AI outcome, so a failure at
batch `k` never prevents batches `k+1..n` from being attempted; when
the AI call for batch `k` fails (and the batch had a processable
image), batch `k` is returned as `failed` with the error message
recorded. -/
theorem processAllBatches_isolates_failures
    (outcomes : Nat → Except String String) (now : Nat)
    (batches : List ImageBatch) :
    (BatchProcessor.processAllBatches outcomes now batches).1.length =
      batches.length ∧
    (∀ k b, batches[k]? = some b →
      (BatchProcessor.processAllBatches outcomes now batches).1[k]? =
        some (BatchProcessor.processBatch (outcomes k) now b)) ∧
    (∀ k b msg, batches[k]? = some b → outcomes k = Except.error msg →
      (b.images.filter (fun img => jsTruthy img.base64Data)).isEmpty = false →
      ∃ r, (BatchProcessor.processAllBatches outcomes now batches).1[k]? = some r ∧
        r.status = BatchStatus.failed ∧
        r.error = some ("AI analysis failed: " ++ msg) ∧
        r.completedAt = some now ∧
        r.images = b.images) := by
  have hget : ∀ k, (BatchProcessor.processAllBatches outcomes now batches).1[k]? =
      (batches[k]?).map (fun b => BatchProcessor.processBatch (outcomes k) now b) := by
    intro k
    simp only [BatchProcessor.processAllBatches]
    rw [processLoop_results_getElem?]
    simp
  refine ⟨?_, ?_, ?_⟩
  · simp only [BatchProcessor.processAllBatches]
    exact processLoop_results_length outcomes now (sumImages batches)
      batches.length batches 0 0
  · intro k b hb
    rw [hget k, hb, Option.map_some']
  · intro k b msg hb hmsg hne
    refine ⟨BatchProcessor.processBatch (outcomes k) now b, ?_, ?_⟩
    · rw [hget k, hb, Option.map_some']
    · rw [processBatch_eq, hmsg]
      rw [if_neg (by simp [hne])]
      exact ⟨rfl, rfl, rfl, rfl⟩

/-- Witness for C1 at a concrete input: a two-batch run where the first
AI call fails still attempts and completes the second batch, and the
first batch carries the recorded error. -/
theorem processAllBatches_isolates_failures_witness :
    (∃ r, (BatchProcessor.processAllBatches
        (fun i => if i = 0 then Except.error "boom" else Except.ok "fine") 3
        [demoBatch .pending (some "ZGF0YQ=="),
         demoBatch .pending (some "ZGF0YQ==")]).1[0]? = some r ∧
      r.status = BatchStatus.failed ∧
      r.error = some ("AI analysis failed: " ++ "boom") ∧
      r.completedAt = some 3 ∧
      r.images = (demoBatch .pending (some "ZGF0YQ==")).images) ∧
    (BatchProcessor.processAllBatches
        (fun i => if i = 0 then Except.error "boom" else Except.ok "fine") 3
        [demoBatch .pending (some "ZGF0YQ=="),
         demoBatch .pending (some "ZGF0YQ==")]).1[1]? =
      some (BatchProcessor.processBatch (Except.ok "fine") 3
        (demoBatch .pending (some "ZGF0YQ=="))) :=
  ⟨(processAllBatches_isolates_failures
      (fun i => if i = 0 then Except.error "boom" else Except.ok "fine") 3
      [demoBatch .pending (some "ZGF0YQ=="),
       demoBatch .pending (some "ZGF0YQ==")]).2.2 0
      (demoBatch .pending (some "ZGF0YQ==")) "boom" (by decide) rfl
      (by decide),
   (processAllBatches_isolates_failures
      (fun i => if i = 0 then Except.error "boom" else Except.ok "fine") 3
      [demoBatch .pending (some "ZGF0YQ=="),
       demoBatch .pending (some "ZGF0YQ==")]).2.1 1
      (demoBatch .pending (some "ZGF0YQ==")) (by decide)⟩

theorem jsProgress_mono (p q t : Nat) (hpq : p ≤ q) :
    ∀ x y, jsProgress p t = some x → jsProgress q t = some y → x ≤ y := by
  intro x y hx hy
  simp only [jsProgress] at hx hy
  by_cases ht : t = 0
  · simp [ht] at hx
  · simp [ht] at hx hy
    subst hx
    subst hy
    have hmul : p * 100 ≤ q * 100 := by omega
    exact Nat.div_le_div_right hmul

theorem jsProgress_le_100 (p t : Nat) (hp : p ≤ t) :
    ∀ x, jsProgress p t = some x → x ≤ 100 := by
  intro x hx
  simp only [jsProgress] at hx
  by_cases ht : t = 0
  · simp [ht] at hx
  · simp [ht] at hx
    subst hx
    have hmul : p * 100 ≤ t * 100 := by omega
    calc p * 100 / t ≤ t * 100 / t := Nat.div_le_div_right hmul
      _ = 100 := Nat.mul_div_cancel_left _ (Nat.pos_of_ne_zero ht)

theorem processLoop_snaps_spec (outcomes : Nat → Except String String)
    (now t tb : Nat) :
    ∀ (l : List ImageBatch) (i p : Nat),
      (BatchProcessor.processLoop outcomes now t tb l i p).2.2 = p + sumImages l ∧
      (∀ s ∈ (BatchProcessor.processLoop outcomes now t tb l i p).2.1,
        s.totalImages = t ∧ s.progress = jsProgress s.processedImages t ∧
        p ≤ s.processedImages ∧ s.processedImages ≤ p + sumImages l) ∧
      List.Pairwise (fun a b => a.processedImages ≤ b.processedImages)
        (BatchProcessor.processLoop outcomes now t tb l i p).2.1 := by
  intro l
  induction l with
  | nil => intro i p; simp [BatchProcessor.processLoop, sumImages]
  | cons b rest ih =>
      intro i p
      obtain ⟨ihfin, ihmem, ihpw⟩ := ih (i + 1) (p + b.images.length)
      simp only [BatchProcessor.processLoop, sumImages_cons]
      refine ⟨?_, ?_, ?_⟩
      · rw [ihfin]
        omega
      · intro s hs
        simp only [List.mem_cons] at hs
        rcases hs with rfl | rfl | hs
        · exact ⟨rfl, rfl, le_refl p, by simp⟩
        · exact ⟨rfl, rfl, by simp, by simp⟩
        · obtain ⟨h1, h2, h3, h4⟩ := ihmem s hs
          exact ⟨h1, h2, by omega, by omega⟩
      · refine List.Pairwise.cons ?_ (List.Pairwise.cons ?_ ihpw)
        · intro s hs
          rcases List.mem_cons.mp hs with rfl | hs
          · simp
          · have := (ihmem s hs).2.2.1
            simp
            omega
        · intro s hs
          have := (ihmem s hs).2.2.1
          simp
          omega

/-- Claim C5 (amended): within one run of `processAllBatches`, every
snapshot emitted during the loop (all but the final one) carries
`progress = Math.floor(processedImages / totalImages * 100)` (`NaN`,
modelled `none`, when the total is zero); progress never decreases
across successive snapshots (no defined value is followed by a smaller
defined value); and the final snapshot always carries the literal 100
— which, for a run with zero total images, does NOT equal the floor
formula, so the claim's first conjunct holds of the final snapshot
only when the total image count is nonzero. -/
theorem processAllBatches_progress_spec (outcomes : Nat → Except String String)
    (now : Nat) (batches : List ImageBatch) :
    (∀ s ∈ (BatchProcessor.processAllBatches outcomes now batches).2.dropLast,
      s.totalImages = sumImages batches ∧
      s.progress = jsProgress s.processedImages (sumImages batches)) ∧
    List.Pairwise
      (fun a b => ∀ x y, a.progress = some x → b.progress = some y → x ≤ y)
      (BatchProcessor.processAllBatches outcomes now batches).2 ∧
    ∃ fin, (BatchProcessor.processAllBatches outcomes now batches).2.getLast? =
        some fin ∧
      fin.progress = some 100 ∧ fin.processedImages = sumImages batches ∧
      fin.status = OverallStatus.completed := by
  obtain ⟨hfin, hmem, hpw⟩ := processLoop_snaps_spec outcomes now
    (sumImages batches) batches.length batches 0 0
  simp only [BatchProcessor.processAllBatches]
  refine ⟨?_, ?_, ?_⟩
  · rw [List.dropLast_concat]
    intro s hs
    exact ⟨(hmem s hs).1, (hmem s hs).2.1⟩
  · rw [List.pairwise_append]
    refine ⟨?_, by simp, ?_⟩
    · refine hpw.imp_of_mem ?_
      intro a c ha hc hle x y hx hy
      have ha' := hmem a ha
      have hc' := hmem c hc
      rw [ha'.2.1] at hx
      rw [hc'.2.1] at hy
      exact jsProgress_mono _ _ _ hle x y hx hy
    · intro a ha c hc x y hx hy
      simp only [List.mem_singleton] at hc
      subst hc
      simp only [Option.some_inj] at hy
      subst hy
      have ha' := hmem a ha
      rw [ha'.2.1] at hx
      exact jsProgress_le_100 _ _ (by omega) x hx
  · refine ⟨_, List.getLast?_concat _, rfl, ?_, rfl⟩
    simp only [hfin]
    omega

/-- Claim C5, counterexample: a run over the empty batch list (total
images = 0) emits exactly one snapshot whose `progress` is the literal
100, while the claim's formula `floor(processed / total * 100)` is
`0 / 0`, i.e. `NaN` (modelled `none`) — so "every emitted snapshot
carries the floor formula" fails at this concrete input. -/
theorem processAllBatches_empty_final_snapshot :
    ((BatchProcessor.processAllBatches (fun _ => Except.error "boom") 0 []).2.map
        (fun s => (s.progress, jsProgress s.processedImages s.totalImages))) =
      [(some 100, none)] := rfl

/-- Witness for C5 at a concrete input: a one-batch run ends with the
final snapshot at progress 100 and all images counted. -/
theorem processAllBatches_progress_spec_witness :
    ∃ fin, (BatchProcessor.processAllBatches (fun _ => Except.ok "ok") 0
        [demoBatch .pending (some "ZGF0YQ==")]).2.getLast? = some fin ∧
      fin.progress = some 100 ∧
      fin.processedImages = sumImages [demoBatch .pending (some "ZGF0YQ==")] ∧
      fin.status = OverallStatus.completed :=
  (processAllBatches_progress_spec (fun _ => Except.ok "ok") 0
    [demoBatch .pending (some "ZGF0YQ==")]).2.2

theorem char_ofNat_eq_iff (n : Nat) (h : n < 256) (c : Char) :
    Char.ofNat n = c ↔ n = c.toNat := by
  have hv : n.isValidChar := Or.inl (by omega)
  have htn : (Char.ofNat n).toNat = n := by
    simp [Char.ofNat, hv, Char.ofNatAux, Char.toNat, UInt32.toNat]
  constructor
  · intro he
    rw [← htn, he]
  · intro he
    rw [he]
    exact Char.ofNat_toNat c

theorem fromCharCodes_eq_DICM (l : List Nat) (h : ∀ x ∈ l, x < 256) :
    fromCharCodes l = "DICM" ↔ l = [68, 73, 67, 77] := by
  constructor
  · intro he
    have hd : l.map Char.ofNat = ['D', 'I', 'C', 'M'] := by
      have := congrArg String.data he
      simpa [fromCharCodes] using this
    have hlen : l.length = 4 := by
      have := congrArg List.length hd
      simpa using this
    rcases l with _ | ⟨a, _ | ⟨b, _ | ⟨c, _ | ⟨d, _ | rest⟩⟩⟩⟩ <;> simp at hlen
    simp only [List.map_cons, List.map_nil, List.cons.injEq, and_true] at hd
    obtain ⟨ha, hb, hc, hd'⟩ := hd
    have h68 := (char_ofNat_eq_iff a (h a (by simp)) _).mp ha
    have h73 := (char_ofNat_eq_iff b (h b (by simp)) _).mp hb
    have h67 := (char_ofNat_eq_iff c (h c (by simp)) _).mp hc
    have h77 := (char_ofNat_eq_iff d (h d (by simp)) _).mp hd'
    simp only [List.cons.injEq, and_true]
    refine ⟨by rw [h68]; decide, by rw [h73]; decide,
      by rw [h67]; decide, by rw [h77]; decide⟩
  · intro he
    subst he
    decide

/-- The 140-byte buffer of the C7 scenario: zeros everywhere except the
ASCII magic `DICM` at offsets 128..131. -/
def dicmBuffer140 : List Nat :=
  List.replicate 128 0 ++ [68, 73, 67, 77] ++ List.replicate 8 0

set_option maxRecDepth 8192 in
/-- Claim C7: the DICOM sniff returns true exactly when the buffer has
at least 132 bytes and bytes 128..131 are the ASCII codes of `DICM`;
in particular the concrete 140-byte buffer with the magic sniffs true
even under the name `scan.png`, and the upload step then routes the
file to the metadata stub (no base64 payload) rather than the image
normalizer. -/
theorem isDicomFile_spec (buffer : List Nat) (h : ∀ x ∈ buffer, x < 256) :
    (isDicomFile buffer = true ↔
      132 ≤ buffer.length ∧ (buffer.drop 128).take 4 = [68, 73, 67, 77]) ∧
    isDicomFile dicmBuffer140 = true ∧
    (∀ (sharpPng : List Nat → Option String)
        (base64Encode : List Nat → String) (dateStr timeStr : String),
      uploadProcessFile sharpPng base64Encode dateStr timeStr
          { name := "scan.png", size := 140 } dicmBuffer140 =
        some { fileType := FileType.PNG
               isDicom := true
               base64Data := none
               metadata := some (extractDicomMetadata dicmBuffer140 dateStr timeStr) }) := by
  refine ⟨?_, by decide, fun sharpPng base64Encode dateStr timeStr => rfl⟩
  simp only [isDicomFile]
  by_cases hlen : buffer.length < 132
  · rw [if_pos hlen]
    exact iff_of_false (by simp) (fun hc => by omega)
  · rw [if_neg hlen]
    have hsub : ∀ x ∈ (buffer.drop 128).take 4, x < 256 := by
      intro x hx
      exact h x (List.drop_subset 128 buffer (List.take_subset 4 _ hx))
    rw [beq_iff_eq, fromCharCodes_eq_DICM _ hsub]
    exact (and_iff_right (by omega)).symm

set_option maxRecDepth 8192 in
/-- Witness for C7 at the concrete buffer: all bytes are below 256 and
the sniff accepts it. -/
theorem isDicomFile_spec_witness :
    (∀ x ∈ dicmBuffer140, x < 256) ∧ isDicomFile dicmBuffer140 = true :=
  ⟨by decide, (isDicomFile_spec dicmBuffer140 (by decide)).2.1⟩
